import Mathlib

/-!
A verification development for the kelda/quilt control plane.

Each subsystem relevant to the checked properties is shallowly embedded:
pure Go functions become Lean functions, external effects (the docker
daemon, `ovs-vsctl` invocations, cloud API calls) become explicit
parameters recording the outcome of the call and explicit lists of the
requests that were emitted.  Machine integers are modelled as `Nat`/`Int`;
timestamps as `Nat` ticks (seconds).
-/

namespace Docker

/-! ### The docker client (`minion/docker`)

`Pull` caches successful pulls per `repo:tag` key for `pullCacheTimeout`
(one minute).  The repository/tag split follows go-dockerclient's
`ParseRepositoryTag`, which `Pull` calls: everything after a `@` is
dropped, then the string is split at the last `:` provided the candidate
tag contains no `/`.
-/

/-- Characters of `s` strictly before the first occurrence of `c`
(the whole string when `c` is absent); the `SplitN(s, sep, 2)[0]` of Go. -/
def takeBeforeFirst (c : Char) : List Char → List Char
  | [] => []
  | x :: xs => if x = c then [] else x :: takeBeforeFirst c xs

/-- Split a list at the last occurrence of `c`, dropping that occurrence;
`none` when `c` is absent.  Mirrors Go's `strings.LastIndex`. -/
def splitAtLast (c : Char) : List Char → Option (List Char × List Char)
  | [] => none
  | x :: xs =>
    match splitAtLast c xs with
    | some (pre, post) => some (x :: pre, post)
    | none => if x = c then some ([], xs) else none

/-- go-dockerclient's `ParseRepositoryTag`: drop any `@<digest>` suffix,
then split at the last `:` unless the part after it contains a `/`. -/
def parseRepositoryTag (s : String) : String × String :=
  let repoTag := takeBeforeFirst '@' s.toList
  match splitAtLast ':' repoTag with
  | none => (⟨repoTag⟩, "")
  | some (repo, tag) =>
    if tag.contains '/' then (⟨repoTag⟩, "") else (⟨repo⟩, ⟨tag⟩)

/-- `pullCacheTimeout = time.Minute`, in seconds. -/
def pullCacheTimeout : Nat := 60

/-- The cache key `Pull` uses: `repo:tag`, with tag defaulting to
`latest` (lines 232–235 and 263 of the docker client). -/
def cacheKey (image : String) : String :=
  let (repo, tag) := parseRepositoryTag image
  let tag := if tag = "" then "latest" else tag
  repo ++ ":" ++ tag

/-- The image cache: key to expiration time.  A missing key corresponds to
a missing `cacheEntry`; a fresh entry carries the zero expiration. -/
abbrev ImageCache := List (String × Nat)

def lookupExp (cache : ImageCache) (k : String) : Option Nat :=
  match cache with
  | [] => none
  | (k', e) :: rest => if k' = k then some e else lookupExp rest k

/-- `getCacheEntry`: return the entry for `repo:tag`, inserting a
zero-expiration entry when absent. -/
def getCacheEntry (cache : ImageCache) (k : String) : Nat × ImageCache :=
  match lookupExp cache k with
  | some e => (e, cache)
  | none => (0, cache ++ [(k, 0)])

/-- Overwrite the expiration of key `k`. -/
def setExp (cache : ImageCache) (k : String) (e : Nat) : ImageCache :=
  match cache with
  | [] => [(k, e)]
  | (k', e') :: rest =>
    if k' = k then (k, e) :: rest else (k', e') :: setExp rest k e

/-- Outcome of one `Pull` call: whether the daemon was contacted
(`PullImage` issued), the returned error if any, and the new cache. -/
structure PullOutcome where
  contactedDaemon : Bool
  pullError : Option String
  cache : ImageCache
  deriving DecidableEq

/-- `Client.Pull` at time `now`.  `daemonError` is the outcome the docker
daemon would report if `PullImage` were issued.  Within the cached window
(`now < entry.expiration`) the daemon is not contacted and `nil` is
returned; a successful pull stamps `now + pullCacheTimeout`; a failed
pull leaves the expiration untouched. -/
def Pull (now : Nat) (image : String) (daemonError : Option String)
    (cache : ImageCache) : PullOutcome :=
  let key := cacheKey image
  let ec := getCacheEntry cache key
  if now < ec.1 then
    ⟨false, none, ec.2⟩
  else
    match daemonError with
    | some e => ⟨true, some ("pull image error: " ++ e), ec.2⟩
    | none => ⟨true, none, setExp ec.2 key (now + pullCacheTimeout)⟩

/-- The requests the docker `Run` path issues against the daemon, in order. -/
inductive DaemonRequest where
  | createContainer (name image : String)
  | startContainer (id : String)
  | removeContainer (id : String)
  deriving DecidableEq

/-- `Client.Run` (docker client lines 119–151): create the container via
`dk.create` (which can fail), then `StartContainer`; when the start fails
the just-created container is removed (`dk.RemoveID(id)`, "to avoid a
zombie") and `("", err)` is returned.  The outcomes of the two daemon
calls are explicit parameters; the result is the returned
`(id, error)` pair together with the requests issued. -/
def Run (name image : String) (createResult : Except String String)
    (startError : String → Option String) :
    (String × Option String) × List DaemonRequest :=
  match createResult with
  | .error e => (("", some e), [.createContainer name image])
  | .ok id =>
    match startError id with
    | some e => (("", some e),
        [.createContainer name image, .startContainer id, .removeContainer id])
    | none => ((id, none), [.createContainer name image, .startContainer id])

end Docker

namespace Supervisor

/-! ### The per-host supervisor (`minion/supervisor`)

`runWorkerOnce` computes the desired infrastructure containers from the
local Minion and Etcd rows; `cfgOVNImpl` reconciles the OVN external-id
keys on the local Open vSwitch node.  Run options are projected to the
fields that identify a container (name, image, args, privileged, pid
mode); the external `ovs-vsctl`, OVN-configuration, and
kubeconfig-serialization calls are represented by explicit outcome
parameters and emitted command lists. -/

/-- Friendly container names (supervisor.go lines 18–36). -/
def EtcdName : String := "etcd"

def OvncontrollerName : String := "ovn-controller"

def OvnnorthdName : String := "ovn-northd"

def OvsdbName : String := "ovsdb-server"

def OvsvswitchdName : String := "ovs-vswitchd"

def RegistryName : String := "registry"

/-- Images (supervisor.go lines 40–44). -/
def ovsImage : String := "keldaio/ovs"

def etcdImage : String := "quay.io/coreos/etcd:v3.3"

def registryImage : String := "registry:2.6.2"

/-- `tunnelingProtocol` (supervisor.go line 48). -/
def tunnelingProtocol : String := "stt"

def etcdHeartbeatInterval : String := "500"

def etcdElectionTimeout : String := "5000"

/-- Modelled from the spec: the kubelet container constants `KubeletName`
and `kubeImage` live in a supervisor source file that is not among the
sources; the spec's worker container list names the container `kubelet`. -/
def KubeletName : String := "kubelet"

/-- Modelled from the spec: the kubelet image constant; its value is not
given by the spec and no checked property depends on it. -/
def kubeImage : String := "kubeImage"

/-- Projection of `docker.RunOptions` to the fields that identify an
infrastructure container. -/
structure RunOptions where
  name : String
  image : String
  args : List String
  privileged : Bool := false
  pidMode : String := ""
  deriving DecidableEq

/-- `nodeName` (supervisor.go line 156). -/
def nodeName (ip : String) : String := "master-" ++ ip

/-- `initialClusterString` (supervisor.go lines 147–154). -/
def initialClusterString (etcdIPs : List String) : String :=
  String.intercalate ","
    (etcdIPs.map fun ip => nodeName ip ++ "=http://" ++ ip ++ ":2380")

/-- Modelled from the spec: `etcdContainer` (defined in a supervisor
source file that is not among the sources) builds the etcd infrastructure
container's run options from the given etcd arguments. -/
def etcdContainer (args : List String) : RunOptions :=
  { name := EtcdName, image := etcdImage, args := args }

/-- Modelled from the spec: TLS material loading is out of scope; the
`tlsIO` path helpers are represented as named files under the minion TLS
directory.  No checked property depends on the file names. -/
def caCertPath (dir : String) : String := dir ++ "/certificate_authority.crt"

/-- Modelled from the spec: see `caCertPath`. -/
def signedCertPath (dir : String) : String := dir ++ "/certificate.crt"

/-- Modelled from the spec: see `caCertPath`. -/
def signedKeyPath (dir : String) : String := dir ++ "/key.pem"

/-- `kubeletArgs` (supervisor.go lines 332–346). -/
def kubeletArgs (tlsDir myIP : String) : List String :=
  ["kubelet",
   "--pod-cidr=10.0.0.0/24",
   "--network-plugin=cni",
   "--resolv-conf=/kelda_resolv.conf",
   "--make-iptables-util-chains=false",
   "--kubeconfig=/var/lib/kubelet/kubeconfig",
   "--hostname-override", myIP,
   "--anonymous-auth=false",
   "--client-ca-file", caCertPath tlsDir,
   "--tls-cert-file", signedCertPath tlsDir,
   "--tls-private-key-file", signedKeyPath tlsDir,
   "--allow-privileged"]

/-- The `db.Etcd` columns `runWorkerOnce` reads. -/
structure EtcdRow where
  etcdIPs : List String
  leaderIP : String
  deriving DecidableEq

/-- The zero value of `db.Etcd`, kept when the Etcd table does not hold
exactly one row (supervisor.go lines 228–231). -/
def selectEtcdRow : List EtcdRow → EtcdRow
  | [r] => r
  | _ => ⟨[], ""⟩

/-- `runWorkerOnce` (supervisor.go lines 225–330): the desired
infrastructure containers, computed from the minion's private IP and the
Etcd table.  `cfgOVNSucceeds` and `kubeconfigWriteSucceeds` record the
outcomes of the external `cfgOVN` call and the kubeconfig serialization;
on their failure the corresponding container is only logged about. -/
def runWorkerOnce (tlsDir privateIP : String) (etcdRows : List EtcdRow)
    (cfgOVNSucceeds kubeconfigWriteSucceeds : Bool) : List RunOptions :=
  let etcdRow := selectEtcdRow etcdRows
  let base : List RunOptions :=
    [{ name := OvsdbName, image := ovsImage, args := ["ovsdb-server"] },
     { name := OvsvswitchdName, image := ovsImage, args := ["ovs-vswitchd"],
       privileged := true }]
  let withEtcd :=
    if etcdRow.etcdIPs ≠ [] then
      base ++ [etcdContainer
        ["--initial-cluster=" ++ initialClusterString etcdRow.etcdIPs,
         "--heartbeat-interval=" ++ etcdHeartbeatInterval,
         "--election-timeout=" ++ etcdElectionTimeout,
         "--proxy=on"]]
    else base
  if privateIP ≠ "" ∧ etcdRow.leaderIP ≠ "" then
    let withOVN :=
      if cfgOVNSucceeds then
        withEtcd ++ [{ name := OvncontrollerName, image := ovsImage,
                       args := ["ovn-controller"] }]
      else withEtcd
    if kubeconfigWriteSucceeds then
      withOVN ++ [{ name := KubeletName, image := kubeImage,
                    args := kubeletArgs tlsDir privateIP,
                    privileged := true, pidMode := "host" }]
    else withOVN
  else withEtcd

/-- The names of the desired worker containers. -/
def workerNames (tlsDir privateIP : String) (etcdRows : List EtcdRow)
    (cfgOVNSucceeds kubeconfigWriteSucceeds : Bool) : List String :=
  (runWorkerOnce tlsDir privateIP etcdRows cfgOVNSucceeds
    kubeconfigWriteSucceeds).map RunOptions.name

/-- The key/value pairs `cfgOVNImpl` reconciles (supervisor.go lines
352–358).  Go's `%q` is rendered as plain double quoting, exact for the
IP strings involved; the comment in the source notes that the values must
match the exact output of `ovs-vsctl get`, `ovn-encap-type` being the one
unquoted value. -/
def ovnConf (myIP leaderIP : String) : List (String × String) :=
  [("external_ids:ovn-remote", "\"tcp:" ++ leaderIP ++ ":6640\""),
   ("external_ids:ovn-encap-ip", "\"" ++ myIP ++ "\""),
   ("external_ids:ovn-encap-type", tunnelingProtocol),
   ("external_ids:api_server", "\"http://" ++ leaderIP ++ ":9000\""),
   ("external_ids:system-id", "\"" ++ myIP ++ "\"")]

/-- The expected output of the single `ovs-vsctl get` call: the desired
values, each followed by a newline (supervisor.go line 364). -/
def ovnExpOutput (myIP leaderIP : String) : String :=
  String.join ((ovnConf myIP leaderIP).map fun kv => kv.2 ++ "\n")

/-- The argument list of the `get` call (supervisor.go lines 361, 365). -/
def ovnGetCmd (myIP leaderIP : String) : List String :=
  ["--if-exists", "get", "Open_vSwitch", "."]
    ++ (ovnConf myIP leaderIP).map Prod.fst

/-- The argument list of the `set` call (supervisor.go lines 362, 366). -/
def ovnSetCmd (myIP leaderIP : String) : List String :=
  ["set", "Open_vSwitch", "."]
    ++ (ovnConf myIP leaderIP).map fun kv => kv.1 ++ "=" ++ kv.2

/-- `cfgOVNImpl` (supervisor.go lines 348–381).  `getResult` and
`setResult` are the outcomes of the two `ovs-vsctl` invocations; the
second component lists the `ovs-vsctl` argument vectors actually issued,
in order. -/
def cfgOVNImpl (myIP leaderIP : String) (getResult : Except String String)
    (setResult : Except String Unit) :
    Except String Unit × List (List String) :=
  match getResult with
  | .error e => (.error ("get OVN config: " ++ e), [ovnGetCmd myIP leaderIP])
  | .ok actualOutput =>
    if actualOutput ≠ ovnExpOutput myIP leaderIP then
      match setResult with
      | .error e => (.error ("set OVN config: " ++ e),
          [ovnGetCmd myIP leaderIP, ovnSetCmd myIP leaderIP])
      | .ok _ => (.ok (), [ovnGetCmd myIP leaderIP, ovnSetCmd myIP leaderIP])
    else (.ok (), [ovnGetCmd myIP leaderIP])

end Supervisor

namespace Foreman

/-! ### The foreman

Only the foreman's tests are among the sources; the tick itself is
modelled from the spec (§4.6): snapshot the machines with a public IP,
and push to each session a `MinionConfig` carrying the machine's role and
private IP, the blueprint, and `EtcdMembers = {master private IPs}`. -/

/-- `db.Role`. -/
inductive Role where
  | None
  | Worker
  | Master
  deriving DecidableEq

/-- The `db.Machine` columns the foreman reads. -/
structure Machine where
  publicIP : String
  privateIP : String
  cloudID : String
  role : Role
  deriving DecidableEq

/-- `pb.MinionConfig`, as pushed by `setMinion`. -/
structure MinionConfig where
  privateIP : String
  role : Role
  etcdMembers : List String
  blueprint : String
  deriving DecidableEq

/-- The private IPs of the machines with `Role = Master`. -/
def masterIPs (machines : List Machine) : List String :=
  (machines.filter fun m => m.role == Role.Master).map Machine.privateIP

/-- Modelled from the spec: one foreman tick (`RunOnce`, whose
implementation is not among the sources).  For every machine with a
public IP, the config pushed over that machine's session: role and
private IP from the row, the blueprint, and the full current master set
as `EtcdMembers`. -/
def runOnce (machines : List Machine) (blueprint : String) :
    List (String × MinionConfig) :=
  (machines.filter fun m => m.publicIP != "").map fun m =>
    (m.publicIP, ⟨m.privateIP, m.role, masterIPs machines, blueprint⟩)

end Foreman

namespace Amazon

/-! ### The Amazon provider (`cloud/amazon`)

Only the provider's tests are among the sources; `SetACLs` and
`UpdateFloatingIPs` are modelled from the spec (§4.4), with the request
shapes taken from the test fixtures: security-group rules are
`(protocol, cidr, fromPort, toPort)` tuples, elastic IPs are addresses
with an allocation id and an optional `(associationId, instanceId)`
association. -/

/-- `acl.ACL`. -/
structure ACL where
  cidrIP : String
  minPort : Int
  maxPort : Int
  deriving DecidableEq

/-- The protocols of the expanded security-group rules. -/
inductive Proto where
  | tcp
  | udp
  | icmp
  deriving DecidableEq

/-- An EC2 `IpPermission` ingress rule for a single IP range. -/
structure IpPermission where
  ipProtocol : Proto
  cidrIP : String
  fromPort : Int
  toPort : Int
  deriving DecidableEq

/-- Modelled from the spec: protocol expansion — each
`(cidr, minPort, maxPort)` produces rules for tcp, udp, and icmp, the
icmp rule with the sentinel port range `-1..-1`. -/
def expandACL (a : ACL) : List IpPermission :=
  [⟨Proto.tcp, a.cidrIP, a.minPort, a.maxPort⟩,
   ⟨Proto.udp, a.cidrIP, a.minPort, a.maxPort⟩,
   ⟨Proto.icmp, a.cidrIP, -1, -1⟩]

def expandACLs (acls : List ACL) : List IpPermission :=
  (acls.map expandACL).flatten

/-- Modelled from the spec: `SetACLs` replaces the namespace's inbound
security rules with the given set — expanded desired rules missing from
the provider are authorized (first component), provider rules absent from
the expanded desired set are revoked (second component). -/
def setACLs (current : List IpPermission) (desired : List ACL) :
    List IpPermission × List IpPermission :=
  ((expandACLs desired).filter fun r => !(current.contains r),
   current.filter fun r => !((expandACLs desired).contains r))

/-- An EC2 elastic IP address: public IP, allocation id, and the current
`(associationId, instanceId)` association if any. -/
structure Address where
  publicIp : String
  allocationId : String
  association : Option (String × String)
  deriving DecidableEq

/-- A machine as seen by `UpdateFloatingIPs`: the cloud instance it
resolves to and the desired floating IP (empty = none). -/
structure FipMachine where
  instanceId : String
  floatingIP : String
  deriving DecidableEq

/-- The EC2 requests `UpdateFloatingIPs` can emit. -/
inductive FipAction where
  | associate (instanceId allocationId : String)
  | disassociate (associationId : String)
  deriving DecidableEq

/-- The association id of `a` when `a` is currently associated with
instance `inst`. -/
def addrAssociatedTo (inst : String) (a : Address) : Option String :=
  match a.association with
  | some (assocId, i) => if i = inst then some assocId else none
  | none => none

/-- Modelled from the spec: reconcile one machine's `FloatingIP`.  An
empty desired IP disassociates every address currently bound to the
machine's instance (not an error when there is none); a non-empty desired
IP must be among the region's reserved addresses — otherwise an error
naming the IP and the region (message as asserted by the provider's
tests) — and is associated by allocation id. -/
def machineActions (region : String) (addresses : List Address)
    (m : FipMachine) : Except String (List FipAction) :=
  if m.floatingIP = "" then
    .ok ((addresses.filterMap (addrAssociatedTo m.instanceId)).map
      FipAction.disassociate)
  else
    match addresses.find? (fun a => a.publicIp == m.floatingIP) with
    | none => .error ("unknown floating IP " ++ m.floatingIP
        ++ ". Has the IP been reserved for the region " ++ region ++ "?")
    | some a => .ok [FipAction.associate m.instanceId a.allocationId]

/-- Modelled from the spec: `UpdateFloatingIPs` reconciles each machine's
`FloatingIP` to the desired value, stopping at the first error. -/
def updateFloatingIPs (region : String) (addresses : List Address) :
    List FipMachine → Except String (List FipAction)
  | [] => .ok []
  | m :: ms =>
    match machineActions region addresses m with
    | .error e => .error e
    | .ok acts =>
      match updateFloatingIPs region addresses ms with
      | .error e => .error e
      | .ok rest => .ok (acts ++ rest)

/-- The effect of a disassociate request on one address. -/
def clearStep (assocId : String) (a : Address) : Address :=
  match a.association with
  | some (id, _) => if id = assocId then { a with association := none } else a
  | none => a

/-- The effect of an associate request on one address. -/
def associateStep (inst allocId : String) (a : Address) : Address :=
  if a.allocationId = allocId then
    { a with association := some ("assoc-" ++ allocId, inst) }
  else a

/-- The provider-side effect of one emitted request. -/
def applyAction (addresses : List Address) : FipAction → List Address
  | .disassociate assocId => addresses.map (clearStep assocId)
  | .associate inst allocId => addresses.map (associateStep inst allocId)

def applyActions (addresses : List Address) (acts : List FipAction) :
    List Address :=
  acts.foldl applyAction addresses

end Amazon

deriving instance DecidableEq for Except

namespace Cli

/-! ### The CLI diff colorizer (`cli/command`)

Only `colorizeDiff`'s test is among the sources; the function is modelled
from the spec: wrap each line beginning with `-` in the red ANSI escape
and each line beginning with `+` in the green one, terminate each
colorized line with a reset, leave other lines unchanged. -/

/-- The red ANSI escape. -/
def redEsc : String := "\x1b[31m"

/-- The green ANSI escape. -/
def greenEsc : String := "\x1b[32m"

/-- The ANSI reset sequence. -/
def resetEsc : String := "\x1b[0m"

/-- The lines of the input, each chunk ending at its newline; the
newline-terminated pieces of Go's `strings.SplitAfter(s, "\n")`, without
the final empty piece (which colorizes to itself). -/
def splitAfterNL : List Char → List (List Char)
  | [] => []
  | x :: xs =>
    if x = '\n' then [x] :: splitAfterNL xs
    else
      match splitAfterNL xs with
      | [] => [[x]]
      | l :: ls => (x :: l) :: ls

/-- Modelled from the spec: colorize one line — green when it begins with
`+`, red when it begins with `-`, unchanged otherwise; colorized lines
are terminated by the reset sequence. -/
def colorizeLine (line : List Char) : String :=
  if line.head? = some '+' then greenEsc ++ ⟨line⟩ ++ resetEsc
  else if line.head? = some '-' then redEsc ++ ⟨line⟩ ++ resetEsc
  else ⟨line⟩

/-- Modelled from the spec: `colorizeDiff` colorizes every line of the
input. -/
def colorizeDiff (s : String) : String :=
  String.join ((splitAfterNL s.toList).map colorizeLine)

end Cli

namespace Tester

/-! ### The integration tester's suite ordering

Only `byPriorityPrefix`'s test is among the sources; the ordering is
modelled from the spec: names of the form `NN-name` sort first by the
integer value of `NN` — with a default priority for names without the
prefix, the spec's stated default being infinity (`none`) — then
lexicographically by the remainder. -/

/-- Split a list at the first occurrence of `c`, dropping that
occurrence; `none` when `c` is absent. -/
def splitAtFirst (c : Char) : List Char → Option (List Char × List Char)
  | [] => none
  | x :: xs =>
    if x = c then some ([], xs)
    else
      match splitAtFirst c xs with
      | some (pre, post) => some (x :: pre, post)
      | none => none

/-- The numeric value of a list of decimal digits (so `00` and `05` parse
as 0 and 5). -/
def natOfDigits (l : List Char) : Nat :=
  l.foldl (fun n c => 10 * n + (c.toNat - '0'.toNat)) 0

/-- Modelled from the spec: the priority and remainder of a suite name.
A name of the form `NN-name` has priority `NN` and remainder `name`;
otherwise the priority is the given default (`none` encoding the spec's
infinity) and the remainder is the whole name. -/
def parsePriority (dflt : Option Nat) (s : String) : Option Nat × String :=
  match splitAtFirst '-' s.toList with
  | some (pre, post) =>
    if pre ≠ [] ∧ pre.all Char.isDigit then (some (natOfDigits pre), ⟨post⟩)
    else (dflt, s)
  | none => (dflt, s)

/-- Priority comparison; `none` is infinity. -/
def priLt : Option Nat → Option Nat → Bool
  | some a, some b => a < b
  | some _, none => true
  | none, _ => false

/-- Lexicographic comparison of the remainders. -/
def strLt : List Char → List Char → Bool
  | [], [] => false
  | [], _ :: _ => true
  | _ :: _, [] => false
  | a :: as, b :: bs => if a < b then true else if b < a then false else strLt as bs

/-- Modelled from the spec: the `Less` of `byPriorityPrefix` — first by
priority, ties by remainder. -/
def ppLess (dflt : Option Nat) (a b : String) : Bool :=
  let pa := parsePriority dflt a
  let pb := parsePriority dflt b
  priLt pa.1 pb.1 || (pa.1 == pb.1 && strLt pa.2.toList pb.2.toList)

/-- Insert into a sorted list, before the first element not less than the
inserted one. -/
def insertSorted (less : String → String → Bool) (x : String) :
    List String → List String
  | [] => [x]
  | y :: ys => if less y x then y :: insertSorted less x ys else x :: y :: ys

/-- Sorting under `byPriorityPrefix` with the given default priority. -/
def suiteSort (dflt : Option Nat) (names : List String) :
    List String :=
  names.foldr (insertSorted (ppLess dflt)) []

end Tester

namespace Docker

theorem lookupExp_setExp (c : ImageCache) (k : String) (e : Nat) :
    lookupExp (setExp c k e) k = some e := by
  induction c with
  | nil => simp [setExp, lookupExp]
  | cons hd tl ih =>
    obtain ⟨k', e'⟩ := hd
    by_cases h : k' = k <;> simp [setExp, lookupExp, h, ih]

theorem lookupExp_append_of_some (c t : ImageCache) (k : String) (v : Nat)
    (h : lookupExp c k = some v) : lookupExp (c ++ t) k = some v := by
  induction c with
  | nil => simp [lookupExp] at h
  | cons hd tl ih =>
    obtain ⟨k', e'⟩ := hd
    by_cases hk : k' = k <;> simp_all [lookupExp, hk]

theorem lookupExp_append_of_none (c t : ImageCache) (k : String)
    (h : lookupExp c k = none) : lookupExp (c ++ t) k = lookupExp t k := by
  induction c with
  | nil => simp
  | cons hd tl ih =>
    obtain ⟨k', e'⟩ := hd
    by_cases hk : k' = k <;> simp_all [lookupExp, hk]

theorem lookupExp_getCacheEntry_self (c : ImageCache) (k : String) :
    lookupExp (getCacheEntry c k).2 k = some ((getCacheEntry c k).1) := by
  rcases h : lookupExp c k with _ | v
  · simp only [getCacheEntry, h]
    rw [lookupExp_append_of_none c _ k h]
    simp [lookupExp]
  · simp only [getCacheEntry, h]

theorem lookupExp_getCacheEntry_frame (c : ImageCache) (k k' : String) :
    (lookupExp (getCacheEntry c k).2 k').getD 0 = (lookupExp c k').getD 0 := by
  rcases h : lookupExp c k with _ | v
  · simp only [getCacheEntry, h]
    rcases h' : lookupExp c k' with _ | v'
    · rw [lookupExp_append_of_none c _ k' h']
      by_cases hk : k = k' <;> simp [lookupExp, hk]
    · rw [lookupExp_append_of_some c _ k' v' h']
  · simp [getCacheEntry, h]

theorem getCacheEntry_of_lookup (c : ImageCache) (k : String) (e : Nat)
    (h : lookupExp c k = some e) : getCacheEntry c k = (e, c) := by
  simp [getCacheEntry, h]

end Docker

section ClaimC4
open Docker

/-- Claim C4: `Pull(image)` is keyed by `repo:tag` — images sharing `repo:tag`
but differing otherwise (e.g. a digest suffix) share one cache entry, and
an untagged image is keyed with tag `latest` — and for one minute after a
successful pull of a key, `Pull` on the same key returns nil without
contacting the daemon; a failed pull does not mark its key's cache entry
as successful, so the next `Pull` retries. -/
theorem docker_pull_cached_by_repo_tag
    (now now2 : Nat) (image image2 : String) (d : Option String)
    (e : String) (cache : ImageCache)
    (hkey : cacheKey image2 = cacheKey image)
    (hfresh : (Pull now image none cache).contactedDaemon = true)
    (hwin : now2 < now + pullCacheTimeout) :
    Pull now image2 d cache = Pull now image d cache
    ∧ cacheKey "foo" = "foo:latest"
    ∧ cacheKey "bar:tag2@sha256:asdfasdfasdfasdf" = cacheKey "bar:tag2"
    ∧ (Pull now2 image2 d (Pull now image none cache).cache).contactedDaemon = false
    ∧ (Pull now2 image2 d (Pull now image none cache).cache).pullError = none
    ∧ (∀ k, (lookupExp (Pull now image (some e) cache).cache k).getD 0
          = (lookupExp cache k).getD 0)
    ∧ ((Pull now image (some e) cache).pullError.isSome = true →
        ∀ now3, now ≤ now3 →
          (Pull now3 image d (Pull now image (some e) cache).cache).contactedDaemon
            = true) := by
  refine ⟨by simp only [Pull, hkey], by decide, by decide, ?_, ?_, ?_, ?_⟩
  · by_cases hlt : now < (getCacheEntry cache (cacheKey image)).1
    · simp [Pull, hlt] at hfresh
    · have hcache : (Pull now image none cache).cache
          = setExp (getCacheEntry cache (cacheKey image)).2 (cacheKey image)
              (now + pullCacheTimeout) := by
        simp [Pull, hlt]
      rw [hcache]
      have hl := lookupExp_setExp (getCacheEntry cache (cacheKey image)).2
        (cacheKey image) (now + pullCacheTimeout)
      simp [Pull, hkey, getCacheEntry_of_lookup _ _ _ hl, hwin]
  · by_cases hlt : now < (getCacheEntry cache (cacheKey image)).1
    · simp [Pull, hlt] at hfresh
    · have hcache : (Pull now image none cache).cache
          = setExp (getCacheEntry cache (cacheKey image)).2 (cacheKey image)
              (now + pullCacheTimeout) := by
        simp [Pull, hlt]
      rw [hcache]
      have hl := lookupExp_setExp (getCacheEntry cache (cacheKey image)).2
        (cacheKey image) (now + pullCacheTimeout)
      simp [Pull, hkey, getCacheEntry_of_lookup _ _ _ hl, hwin]
  · intro k
    have hcache : (Pull now image (some e) cache).cache
        = (getCacheEntry cache (cacheKey image)).2 := by
      simp only [Pull]
      split <;> rfl
    rw [hcache]
    exact lookupExp_getCacheEntry_frame cache (cacheKey image) k
  · intro herr now3 h3
    by_cases hlt : now < (getCacheEntry cache (cacheKey image)).1
    · simp [Pull, hlt] at herr
    · have hcache : (Pull now image (some e) cache).cache
          = (getCacheEntry cache (cacheKey image)).2 := by
        simp [Pull, hlt]
      rw [hcache]
      have hge := getCacheEntry_of_lookup _ _ _
        (lookupExp_getCacheEntry_self cache (cacheKey image))
      have hnlt : ¬ now3 < (getCacheEntry cache (cacheKey image)).1 :=
        fun hc => hlt (Nat.lt_of_le_of_lt h3 hc)
      cases d <;> simp [Pull, hge, hnlt]

/-- Witness for C4: a pull of `foo` at time 0 succeeds, and a pull of
`foo:latest` (the same cache key) at time 30 is served from the cache. -/
theorem docker_pull_cached_by_repo_tag_witness :
    (Pull 30 "foo:latest" none (Pull 0 "foo" none []).cache).contactedDaemon
      = false :=
  (docker_pull_cached_by_repo_tag 0 30 "foo" "foo:latest" none "boom" []
    (by decide) (by decide) (by decide)).2.2.2.1

end ClaimC4

section ClaimC10
open Docker

/-- Claim C10: If docker `Run` succeeds in creating the container but fails to
start it, `Run` removes the just-created container before returning the
error, so an erroring `Run` leaves no stopped container behind and
returns an empty container id together with the error. -/
theorem docker_run_removes_on_start_failure
    (name image id e : String) (createResult : Except String String)
    (startError : String → Option String)
    (hc : createResult = .ok id) (hs : startError id = some e) :
    Run name image createResult startError
      = (("", some e),
         [.createContainer name image, .startContainer id, .removeContainer id])
    ∧ (∀ (cr : Except String String) (se : String → Option String),
        ((Run name image cr se).1).2.isSome = true →
          ((Run name image cr se).1).1 = "") := by
  subst hc
  refine ⟨by simp [Run, hs], ?_⟩
  intro cr se h
  match cr with
  | .error e' => rfl
  | .ok id' =>
    match h' : se id' with
    | some e' => simp [Run, h']
    | none => simp [Run, h'] at h

/-- Witness for C10: a concrete `Run` whose start fails removes the
created container `c1` and returns an empty id with the error. -/
theorem docker_run_removes_on_start_failure_witness :
    Run "name1" "img" (.ok "c1") (fun _ => some "boom")
      = (("", some "boom"),
         [.createContainer "name1" "img", .startContainer "c1",
          .removeContainer "c1"]) :=
  (docker_run_removes_on_start_failure "name1" "img" "c1" "boom"
    (.ok "c1") (fun _ => some "boom") rfl rfl).1

end ClaimC10

section ClaimC7
open Supervisor

/-- Claim C7: On every worker supervisor pass, the desired infrastructure
container set is computed from the local Minion and Etcd rows as: always
`ovsdb-server` and `ovs-vswitchd`; additionally an `etcd` container in
proxy mode joined to the cluster exactly when `EtcdIPs` is non-empty; and
additionally an `ovn-controller` and a `kubelet` exactly when a leader is
known (`LeaderIP` non-empty, with the minion's `PrivateIP` set).  The
external OVN-configuration and kubeconfig-serialization calls are assumed
to succeed. -/
theorem worker_supervisor_desired_containers
    (tlsDir privateIP : String) (etcdRows : List EtcdRow)
    (cfgOk kubeOk : Bool) (hc : cfgOk = true) (hk : kubeOk = true) :
    OvsdbName ∈ workerNames tlsDir privateIP etcdRows cfgOk kubeOk
    ∧ OvsvswitchdName ∈ workerNames tlsDir privateIP etcdRows cfgOk kubeOk
    ∧ (EtcdName ∈ workerNames tlsDir privateIP etcdRows cfgOk kubeOk
        ↔ (selectEtcdRow etcdRows).etcdIPs ≠ [])
    ∧ ((selectEtcdRow etcdRows).etcdIPs ≠ [] →
        etcdContainer
          ["--initial-cluster="
             ++ initialClusterString (selectEtcdRow etcdRows).etcdIPs,
           "--heartbeat-interval=" ++ etcdHeartbeatInterval,
           "--election-timeout=" ++ etcdElectionTimeout,
           "--proxy=on"]
          ∈ runWorkerOnce tlsDir privateIP etcdRows cfgOk kubeOk)
    ∧ (OvncontrollerName ∈ workerNames tlsDir privateIP etcdRows cfgOk kubeOk
        ↔ privateIP ≠ "" ∧ (selectEtcdRow etcdRows).leaderIP ≠ "")
    ∧ (KubeletName ∈ workerNames tlsDir privateIP etcdRows cfgOk kubeOk
        ↔ privateIP ≠ "" ∧ (selectEtcdRow etcdRows).leaderIP ≠ "") := by
  subst hc hk
  by_cases he : (selectEtcdRow etcdRows).etcdIPs = [] <;>
    by_cases hp : privateIP = "" <;>
      by_cases hl : (selectEtcdRow etcdRows).leaderIP = "" <;>
        refine ⟨?_, ?_, ?_, ?_, ?_, ?_⟩ <;>
          simp +decide [workerNames, runWorkerOnce, he, hp, hl, etcdContainer,
            EtcdName, OvsdbName, OvsvswitchdName, OvncontrollerName,
            KubeletName]

/-- Witness for C7: with one Etcd row carrying members and a leader, a
worker with a private IP desires the full container set. -/
theorem worker_supervisor_desired_containers_witness :
    KubeletName ∈ workerNames "/tls" "10.0.0.2" [⟨["10.0.0.1"], "10.0.0.1"⟩]
      true true
    ↔ ("10.0.0.2" : String) ≠ ""
        ∧ (selectEtcdRow [⟨["10.0.0.1"], "10.0.0.1"⟩]).leaderIP ≠ "" :=
  (worker_supervisor_desired_containers "/tls" "10.0.0.2"
    [⟨["10.0.0.1"], "10.0.0.1"⟩] true true rfl rfl).2.2.2.2.2

end ClaimC7

section ClaimC8
open Supervisor

/-- Counterexample for claim C8: the claim says `cfgOVN` sets six OVN
external-id keys, but for the concrete node `1.2.3.4` with leader
`5.6.7.8` the reconciled configuration holds exactly five keys. -/
theorem cfgOVN_key_count_counterexample :
    (ovnConf "1.2.3.4" "5.6.7.8").length = 5
    ∧ ¬ (ovnConf "1.2.3.4" "5.6.7.8").length = 6 := by
  constructor <;> decide

/-- Claim C8, amended: `cfgOVN` sets five OVN external-id keys on the local
OVS node, and it issues the set command if and only if the output of the
single get command differs from the expected concatenation of desired
values; when the current values already match, the OVS configuration is
left entirely unchanged (only the get is issued). -/
theorem cfgOVN_flap_free (myIP leaderIP out : String)
    (setResult : Except String Unit) :
    (ovnConf myIP leaderIP).map Prod.fst
      = ["external_ids:ovn-remote", "external_ids:ovn-encap-ip",
         "external_ids:ovn-encap-type", "external_ids:api_server",
         "external_ids:system-id"]
    ∧ (ovnSetCmd myIP leaderIP
          ∈ (cfgOVNImpl myIP leaderIP (.ok out) setResult).2
        ↔ out ≠ ovnExpOutput myIP leaderIP)
    ∧ (out = ovnExpOutput myIP leaderIP →
        cfgOVNImpl myIP leaderIP (.ok out) setResult
          = (.ok (), [ovnGetCmd myIP leaderIP])) := by
  refine ⟨rfl, ?_, ?_⟩
  · by_cases hout : out = ovnExpOutput myIP leaderIP
    · simp [cfgOVNImpl, hout, ovnSetCmd, ovnGetCmd]
    · cases setResult <;> simp [cfgOVNImpl, hout]
  · intro hout
    simp [cfgOVNImpl, hout]

/-- Witness for C8: when the get output already matches, only the get is
issued and the call succeeds. -/
theorem cfgOVN_flap_free_witness :
    cfgOVNImpl "1.2.3.4" "5.6.7.8" (.ok (ovnExpOutput "1.2.3.4" "5.6.7.8"))
        (.ok ())
      = (.ok (), [ovnGetCmd "1.2.3.4" "5.6.7.8"]) :=
  (cfgOVN_flap_free "1.2.3.4" "5.6.7.8" (ovnExpOutput "1.2.3.4" "5.6.7.8")
    (.ok ())).2.2 rfl

end ClaimC8

section ClaimC3
open Foreman

/-- Claim C3: After one foreman tick, every connected worker's pushed
`MinionConfig` has `EtcdMembers` equal to the set of private IPs of all
machines with `Role = Master` in the store at that tick; with masters
`{m1, m2}` and worker `w1` the worker receives `{m1-priv, m2-priv}`, and
removing master `m1` and ticking once yields exactly `{m2-priv}` with no
stale member retained. -/
theorem foreman_pushes_current_master_set
    (machines : List Machine) (blueprint ip : String) (cfg : MinionConfig)
    (h : (ip, cfg) ∈ runOnce machines blueprint) :
    cfg.etcdMembers = masterIPs machines
    ∧ runOnce
        [⟨"m1-pub", "m1-priv", "ignored", Role.Master⟩,
         ⟨"m2-pub", "m2-priv", "ignored", Role.Master⟩,
         ⟨"w1-pub", "w1-priv", "ignored", Role.Worker⟩] "bp"
      = [("m1-pub", ⟨"m1-priv", Role.Master, ["m1-priv", "m2-priv"], "bp"⟩),
         ("m2-pub", ⟨"m2-priv", Role.Master, ["m1-priv", "m2-priv"], "bp"⟩),
         ("w1-pub", ⟨"w1-priv", Role.Worker, ["m1-priv", "m2-priv"], "bp"⟩)]
    ∧ runOnce
        [⟨"m2-pub", "m2-priv", "ignored", Role.Master⟩,
         ⟨"w1-pub", "w1-priv", "ignored", Role.Worker⟩] "bp"
      = [("m2-pub", ⟨"m2-priv", Role.Master, ["m2-priv"], "bp"⟩),
         ("w1-pub", ⟨"w1-priv", Role.Worker, ["m2-priv"], "bp"⟩)] := by
  refine ⟨?_, by decide, by decide⟩
  simp only [runOnce, List.mem_map, List.mem_filter] at h
  obtain ⟨m, _, hm⟩ := h
  have := congrArg Prod.snd hm
  simp at this
  rw [← this]

/-- Witness for C3: the config pushed to worker `w1-pub` carries the full
master set. -/
theorem foreman_pushes_current_master_set_witness :
    (⟨"w1-priv", Foreman.Role.Worker, ["m1-priv", "m2-priv"], "bp"⟩
        : MinionConfig).etcdMembers
      = masterIPs
          [⟨"m1-pub", "m1-priv", "ignored", Role.Master⟩,
           ⟨"m2-pub", "m2-priv", "ignored", Role.Master⟩,
           ⟨"w1-pub", "w1-priv", "ignored", Role.Worker⟩] :=
  (foreman_pushes_current_master_set
    [⟨"m1-pub", "m1-priv", "ignored", Role.Master⟩,
     ⟨"m2-pub", "m2-priv", "ignored", Role.Master⟩,
     ⟨"w1-pub", "w1-priv", "ignored", Role.Worker⟩] "bp" "w1-pub"
    ⟨"w1-priv", Role.Worker, ["m1-priv", "m2-priv"], "bp"⟩ (by decide)).1

end ClaimC3

section ClaimC1
open Amazon

/-- Claim C1: `SetACLs` expands each `(cidr, minPort, maxPort)` entry into
exactly three authorized rules — tcp `minPort–maxPort`, udp
`minPort–maxPort`, and icmp with the sentinel range `-1..-1` — each
carrying that entry's IP range; the input `[{cidr:"foo", min:1,
max:65535}]` (against a provider with no rules) yields exactly tcp
1–65535, udp 1–65535, and icmp `-1..-1` for range `foo`, and rules
present on the provider but absent from the input are revoked. -/
theorem setACLs_protocol_expansion
    (current : List IpPermission) (desired : List ACL) (r : IpPermission)
    (hr : r ∈ current) (hw : r ∉ expandACLs desired) :
    r ∈ (setACLs current desired).2
    ∧ (∀ a : ACL, expandACL a
        = [⟨Proto.tcp, a.cidrIP, a.minPort, a.maxPort⟩,
           ⟨Proto.udp, a.cidrIP, a.minPort, a.maxPort⟩,
           ⟨Proto.icmp, a.cidrIP, -1, -1⟩])
    ∧ setACLs [] [⟨"foo", 1, 65535⟩]
        = ([⟨Proto.tcp, "foo", 1, 65535⟩, ⟨Proto.udp, "foo", 1, 65535⟩,
            ⟨Proto.icmp, "foo", -1, -1⟩], []) := by
  refine ⟨?_, fun a => rfl, by decide⟩
  simp only [setACLs, List.mem_filter]
  exact ⟨hr, by simpa using hw⟩

/-- Witness for C1: the stale rule `deleteMe` on the provider is revoked
when absent from the input. -/
theorem setACLs_protocol_expansion_witness :
    (⟨Proto.tcp, "deleteMe", 1, 2⟩ : IpPermission)
      ∈ (setACLs [⟨Proto.tcp, "deleteMe", 1, 2⟩] [⟨"foo", 1, 65535⟩]).2 :=
  (setACLs_protocol_expansion [⟨Proto.tcp, "deleteMe", 1, 2⟩]
    [⟨"foo", 1, 65535⟩] ⟨Proto.tcp, "deleteMe", 1, 2⟩
    (by decide) (by decide)).1

end ClaimC1

namespace Amazon

theorem clearStep_of_none (d : String) (a : Address)
    (h : a.association = none) : clearStep d a = a := by
  simp [clearStep, h]

theorem foldl_clearStep_none (D : List String) (a : Address)
    (h : a.association = none) :
    D.foldl (fun x d => clearStep d x) a = a := by
  induction D with
  | nil => rfl
  | cons d D ih => rw [List.foldl_cons, clearStep_of_none d a h]; exact ih

theorem foldl_clearStep_assoc_cases (D : List String) (a : Address) :
    D.foldl (fun x d => clearStep d x) a = a
    ∨ (D.foldl (fun x d => clearStep d x) a).association = none := by
  induction D generalizing a with
  | nil => exact .inl rfl
  | cons d D ih =>
    rw [List.foldl_cons]
    rcases ha : a.association with _ | ⟨id, i⟩
    · rw [clearStep_of_none d a ha]; exact ih a
    · by_cases hid : id = d
      · have hclear : (clearStep d a).association = none := by
          simp [clearStep, ha, hid]
        right
        rw [foldl_clearStep_none D _ hclear]
        exact hclear
      · have heq : clearStep d a = a := by simp [clearStep, ha, hid]
        rw [heq]; exact ih a

theorem foldl_clearStep_clears (D : List String) (a : Address)
    (d i : String) (ha : a.association = some (d, i)) (hd : d ∈ D) :
    (D.foldl (fun x d => clearStep d x) a).association = none := by
  induction D generalizing a with
  | nil => cases hd
  | cons d' D ih =>
    rw [List.foldl_cons]
    by_cases hdd : d = d'
    · have hclear : (clearStep d' a).association = none := by
        simp [clearStep, ha, hdd]
      rw [foldl_clearStep_none D _ hclear]
      exact hclear
    · have heq : clearStep d' a = a := by simp [clearStep, ha, hdd]
      rw [heq]
      exact ih a ha (List.mem_of_ne_of_mem hdd hd)

theorem addrAssociatedTo_foldl_clear (inst : String) (D : List String)
    (a : Address) (h : ∀ d, addrAssociatedTo inst a = some d → d ∈ D) :
    addrAssociatedTo inst (D.foldl (fun x d => clearStep d x) a) = none := by
  rcases hres : addrAssociatedTo inst a with _ | d
  · rcases foldl_clearStep_assoc_cases D a with heq | hnone
    · rw [heq]; exact hres
    · simp [addrAssociatedTo, hnone]
  · have ha : a.association = some (d, inst) := by
      rcases hassoc : a.association with _ | ⟨id, i⟩
      · simp [addrAssociatedTo, hassoc] at hres
      · simp only [addrAssociatedTo, hassoc] at hres
        by_cases hi : i = inst
        · rw [if_pos hi] at hres
          injection hres with hid
          rw [hid, hi]
        · rw [if_neg hi] at hres
          cases hres
    have hclear := foldl_clearStep_clears D a d inst ha (h d hres)
    simp [addrAssociatedTo, hclear]

theorem applyActions_disassociate_map (addrs : List Address)
    (D : List String) :
    applyActions addrs (D.map FipAction.disassociate)
      = addrs.map (fun a => D.foldl (fun x d => clearStep d x) a) := by
  induction D generalizing addrs with
  | nil => simp [applyActions]
  | cons d D ih =>
    show List.foldl applyAction (addrs.map (clearStep d))
        (D.map FipAction.disassociate) = _
    rw [show (List.foldl applyAction (addrs.map (clearStep d))
        (D.map FipAction.disassociate))
      = applyActions (addrs.map (clearStep d))
          (D.map FipAction.disassociate) from rfl]
    rw [ih (addrs.map (clearStep d)), List.map_map]
    rfl

theorem updateFloatingIPs_after_disassociate (region : String)
    (addrs : List Address) (m : FipMachine) (hm : m.floatingIP = "") :
    updateFloatingIPs region
      (applyActions addrs
        ((addrs.filterMap (addrAssociatedTo m.instanceId)).map
          FipAction.disassociate)) [m]
      = .ok [] := by
  have hclear : (applyActions addrs
      ((addrs.filterMap (addrAssociatedTo m.instanceId)).map
        FipAction.disassociate)).filterMap (addrAssociatedTo m.instanceId)
      = [] := by
    rw [applyActions_disassociate_map, List.filterMap_eq_nil_iff]
    intro a ha
    obtain ⟨a0, ha0, rfl⟩ := List.mem_map.mp ha
    exact addrAssociatedTo_foldl_clear m.instanceId _ a0
      (fun d hd => List.mem_filterMap.mpr ⟨a0, ha0, hd⟩)
  simp [updateFloatingIPs, machineActions, hm, hclear]

theorem machineActions_error_iff (region : String) (addrs : List Address)
    (m : FipMachine) :
    (∃ e, machineActions region addrs m = .error e)
      ↔ m.floatingIP ≠ ""
          ∧ addrs.find? (fun a => a.publicIp == m.floatingIP) = none := by
  by_cases hm : m.floatingIP = ""
  · simp [machineActions, hm]
  · rcases hf : addrs.find? (fun a => a.publicIp == m.floatingIP) with _ | a <;>
      simp [machineActions, hm, hf]

theorem updateFloatingIPs_error_iff (region : String)
    (addresses : List Address) (machines : List FipMachine) :
    (∃ e, updateFloatingIPs region addresses machines = .error e)
      ↔ ∃ m ∈ machines, m.floatingIP ≠ ""
          ∧ addresses.find? (fun a => a.publicIp == m.floatingIP) = none := by
  induction machines with
  | nil => simp [updateFloatingIPs]
  | cons m ms ih =>
    rcases hma : machineActions region addresses m with e | acts
    · have hbad := (machineActions_error_iff region addresses m).mp ⟨e, hma⟩
      simp only [updateFloatingIPs, hma]
      constructor
      · intro _
        exact ⟨m, List.mem_cons_self m ms, hbad.1, hbad.2⟩
      · intro _
        exact ⟨e, rfl⟩
    · have hok : ¬ (m.floatingIP ≠ ""
          ∧ addresses.find? (fun a => a.publicIp == m.floatingIP) = none) := by
        rw [← machineActions_error_iff region addresses m]
        rintro ⟨e, he⟩
        rw [hma] at he
        cases he
      simp only [updateFloatingIPs, hma]
      rcases hrest : updateFloatingIPs region addresses ms with e | rest
      · constructor
        · intro _
          obtain ⟨m2, hm2, hb⟩ := ih.mp ⟨e, hrest⟩
          exact ⟨m2, List.mem_cons_of_mem m hm2, hb⟩
        · intro _
          exact ⟨e, rfl⟩
      · constructor
        · rintro ⟨e2, he2⟩
          cases he2
        · rintro ⟨m2, hm2, hb⟩
          rcases List.mem_cons.mp hm2 with rfl | hmem
          · exact absurd hb hok
          · obtain ⟨e, he⟩ := ih.mpr ⟨m2, hmem, hb⟩
            rw [hrest] at he
            cases he

end Amazon

section ClaimC5
open Amazon

/-- Claim C5: For a machine whose cloud instance currently has a floating-IP
association (`y.y.y.y` bound to instance `i-2`), calling
`UpdateFloatingIPs` with that machine's `FloatingIP` set to `""` emits
exactly one disassociate for that association; a second call on the
resulting provider state emits no further disassociate and returns no
error (disassociating a machine with no association is not an error). -/
theorem updateFloatingIPs_disassociate_idempotent
    (region : String) (addresses : List Address) (m : FipMachine)
    (acts : List FipAction) (hm : m.floatingIP = "")
    (hfirst : updateFloatingIPs region addresses [m] = .ok acts) :
    updateFloatingIPs region (applyActions addresses acts) [m] = .ok []
    ∧ updateFloatingIPs "region"
        [⟨"x.x.x.x", "alloc-1", none⟩,
         ⟨"y.y.y.y", "alloc-2", some ("assoc-2", "i-2")⟩]
        [⟨"i-2", ""⟩]
      = .ok [.disassociate "assoc-2"]
    ∧ updateFloatingIPs "region"
        (applyActions
          [⟨"x.x.x.x", "alloc-1", none⟩,
           ⟨"y.y.y.y", "alloc-2", some ("assoc-2", "i-2")⟩]
          [.disassociate "assoc-2"])
        [⟨"i-2", ""⟩]
      = .ok [] := by
  refine ⟨?_, by decide, by decide⟩
  have hacts : acts
      = (addresses.filterMap (addrAssociatedTo m.instanceId)).map
          FipAction.disassociate := by
    simp [updateFloatingIPs, machineActions, hm] at hfirst
    exact hfirst.symm
  rw [hacts]
  exact updateFloatingIPs_after_disassociate region addresses m hm

/-- Witness for C5: the second call on the post-disassociate state of the
two-address fixture emits nothing and succeeds. -/
theorem updateFloatingIPs_disassociate_idempotent_witness :
    updateFloatingIPs "region"
      (applyActions
        [⟨"x.x.x.x", "alloc-1", none⟩,
         ⟨"y.y.y.y", "alloc-2", some ("assoc-2", "i-2")⟩]
        [.disassociate "assoc-2"])
      [⟨"i-2", ""⟩]
    = .ok [] :=
  (updateFloatingIPs_disassociate_idempotent "region"
    [⟨"x.x.x.x", "alloc-1", none⟩,
     ⟨"y.y.y.y", "alloc-2", some ("assoc-2", "i-2")⟩]
    ⟨"i-2", ""⟩ [.disassociate "assoc-2"] rfl (by decide)).1

end ClaimC5

section ClaimC6
open Amazon

/-- Claim C6: `UpdateFloatingIPs` returns an error exactly when some machine
requests a floating IP that is not among the region's reserved addresses;
the error message names both the requested IP and the region (for IP
`8.8.8.8` in region `region`: "unknown floating IP 8.8.8.8. Has the IP
been reserved for the region region?"); if the IP is reserved, the same
call succeeds. -/
theorem updateFloatingIPs_unknown_ip_error
    (region : String) (addresses : List Address)
    (machines : List FipMachine) :
    ((∃ e, updateFloatingIPs region addresses machines = .error e)
      ↔ ∃ m ∈ machines, m.floatingIP ≠ ""
          ∧ addresses.find? (fun a => a.publicIp == m.floatingIP) = none)
    ∧ (∀ m : FipMachine, m.floatingIP ≠ "" →
        addresses.find? (fun a => a.publicIp == m.floatingIP) = none →
        machineActions region addresses m
          = .error ("unknown floating IP " ++ m.floatingIP
              ++ ". Has the IP been reserved for the region " ++ region
              ++ "?"))
    ∧ updateFloatingIPs "region" [] [⟨"cloudID", "8.8.8.8"⟩]
        = .error ("unknown floating IP 8.8.8.8. "
            ++ "Has the IP been reserved for the region region?")
    ∧ updateFloatingIPs "region" [⟨"8.8.8.8", "alloc-1", none⟩]
        [⟨"cloudID", "8.8.8.8"⟩]
      = .ok [.associate "cloudID" "alloc-1"] := by
  refine ⟨updateFloatingIPs_error_iff region addresses machines,
    ?_, by decide, by decide⟩
  intro m hm hf
  simp [machineActions, hm, hf]

/-- Witness for C6: the one-machine call with an unreserved IP errors with
the message naming the IP and the region. -/
theorem updateFloatingIPs_unknown_ip_error_witness :
    updateFloatingIPs "region" [] [⟨"cloudID", "8.8.8.8"⟩]
      = .error ("unknown floating IP 8.8.8.8. "
          ++ "Has the IP been reserved for the region region?") :=
  (updateFloatingIPs_unknown_ip_error "region" []
    [⟨"cloudID", "8.8.8.8"⟩]).2.2.1

end ClaimC6

section ClaimC9
open Cli

/-- Claim C9: For every input string, `colorizeDiff` wraps each line
beginning with `-` in the red ANSI escape and each line beginning with
`+` in the green ANSI escape, each colorized line terminated by a reset
sequence, and leaves all other lines unchanged; in particular the input
`"-\tred\n+\tgreen\n"` produces the `-` line wrapped in red and the `+`
line wrapped in green, each followed by a reset. -/
theorem colorizeDiff_colors_lines :
    (∀ l : List Char, colorizeLine ('-' :: l) = redEsc ++ ⟨'-' :: l⟩ ++ resetEsc)
    ∧ (∀ l : List Char, colorizeLine ('+' :: l) = greenEsc ++ ⟨'+' :: l⟩ ++ resetEsc)
    ∧ (∀ l : List Char, l.head? ≠ some '+' → l.head? ≠ some '-' →
        colorizeLine l = ⟨l⟩)
    ∧ (∀ s : String,
        colorizeDiff s = String.join ((splitAfterNL s.toList).map colorizeLine))
    ∧ colorizeDiff "-\tred\n+\tgreen\n"
        = redEsc ++ "-\tred\n" ++ resetEsc ++ (greenEsc ++ "+\tgreen\n" ++ resetEsc)
    ∧ colorizeDiff "\x7b\x7d" = "\x7b\x7d"
    ∧ colorizeDiff ("no color\n" ++ "-\tred\n" ++ "+\tgreen\n")
        = "no color\n" ++ redEsc ++ "-\tred\n" ++ resetEsc
            ++ greenEsc ++ "+\tgreen\n" ++ resetEsc
    ∧ colorizeDiff "\n" = "\n"
    ∧ colorizeDiff "\na\n\n" = "\na\n\n"
    ∧ colorizeDiff "+----+---+\n" = greenEsc ++ "+----+---+\n" ++ resetEsc := by
  refine ⟨fun l => rfl, fun l => rfl, ?_, fun s => rfl,
    by decide, by decide, by decide, by decide, by decide, by decide⟩
  intro l h1 h2
  cases l with
  | nil => rfl
  | cons c rest =>
    unfold colorizeLine
    rw [if_neg h1, if_neg h2]

/-- Witness for C9: a line that starts with neither marker passes through
unchanged. -/
theorem colorizeDiff_colors_lines_witness :
    colorizeLine [' ', 'a', '\n'] = ⟨[' ', 'a', '\n']⟩ :=
  colorizeDiff_colors_lines.2.2.1 [' ', 'a', '\n'] (by decide) (by decide)

end ClaimC9

section ClaimC2
open Tester

/-- Counterexample for claim C2: under the claim's stated rule — the
priority of a name without a `NN-` prefix defaults to infinity — sorting
`[foo, 100-bar]` puts `100-bar` first, contradicting the claim's own
expected result `[foo, 100-bar]` (which is what the repository's test
asserts). -/
theorem byPriorityPrefix_infinity_counterexample :
    suiteSort none ["foo", "100-bar"] = ["100-bar", "foo"]
    ∧ ¬ suiteSort none ["foo", "100-bar"] = ["foo", "100-bar"] := by
  constructor <;> decide

/-- Claim C2, amended: Sorting names under `byPriorityPrefix` orders names
of the form `NN-name` first by the integer value of `NN` — defaulting to
50 when the prefix is absent (the test vectors force a finite default
strictly between 20 and 100) — then lexicographically by the remainder;
all the ordering examples of the repository's test hold: `[100-foo,
05-bar, 00-baz]` sorts to `[00-baz, 05-bar, 100-foo]`, `[foo, 20-bar]`
to `[20-bar, foo]`, and `[foo, 100-bar]` to `[foo, 100-bar]`. -/
theorem byPriorityPrefix_sorts_with_default_50 :
    suiteSort (some 50) ["100-foo", "50-bar"] = ["50-bar", "100-foo"]
    ∧ suiteSort (some 50) ["50-bar", "100-foo"]
        = ["50-bar", "100-foo"]
    ∧ suiteSort (some 50) ["100-foo", "05-bar", "00-baz"]
        = ["00-baz", "05-bar", "100-foo"]
    ∧ suiteSort (some 50) ["50-foo", "50-bar"] = ["50-bar", "50-foo"]
    ∧ suiteSort (some 50) ["foo", "20-bar"] = ["20-bar", "foo"]
    ∧ suiteSort (some 50) ["foo", "100-bar"] = ["foo", "100-bar"] := by
  refine ⟨by decide, by decide, by decide, by decide, by decide, by decide⟩

end ClaimC2
